import Mathlib

/-!
Shallow embedding of the document question-answering pipeline of the
`data-analysis-platform` repository (text-based, hybrid and efficient
policy analyzers), together with proofs of the frozen claims about it.

Python strings are modelled as `List Char`; Python `str.lower`, `str.split`,
`str.strip`, `str.find`, `in`, and slicing are modelled character by
character (ASCII semantics).  Machine-level details that none of the claims
touch (float formatting of relevance scores, wall-clock sleeping, the PDF
byte parser, the network) are modelled as explicit inputs: a parsed PDF is
an `Except` value of page texts, and each external generative-model call is
an explicit outcome parameter.
-/

set_option autoImplicit false

namespace DataAnalysis

/-- Convenience: the character list of a string literal. -/
def str (s : String) : List Char := s.toList

/-- Python `str.lower` on one character (ASCII range, as used by the repo). -/
def lowerChar (c : Char) : Char :=
  if 'A' ≤ c ∧ c ≤ 'Z' then Char.ofNat (c.toNat + 32) else c

/-- Python `str.lower` on a whole string. -/
def pyLower (s : List Char) : List Char := s.map lowerChar

/-- The whitespace characters recognised by Python `str.split()` /
`str.strip()` / `\s` (ASCII set). -/
def isPySpace (c : Char) : Bool :=
  c = ' ' || c = '\t' || c = '\n' || c = '\r' || c = '\x0b' || c = '\x0c'

/-- ASCII decimal digit, the `\d` character class. -/
def isDigitChar (c : Char) : Bool := '0' ≤ c && c ≤ '9'

/-- Python slice `s[a:b]` for `0 ≤ a, b` (clamped at the ends like Python). -/
def pySlice (s : List Char) (a b : Nat) : List Char := (s.take b).drop a

/-- Helper for Python `str.find`: first index `≥ idx` at which `needle`
occurs in `s`, where `s` is the suffix of the original string starting at
`idx`. -/
def pyFindAux : List Char → List Char → Nat → Option Nat
  | s, needle, idx =>
    if needle.isPrefixOf s then some idx
    else
      match s with
      | [] => none
      | _ :: s₂ => pyFindAux s₂ needle (idx + 1)

/-- Python `s.find(needle, start)` (`none` models the `-1` result). -/
def pyFind (s needle : List Char) (start : Nat) : Option Nat :=
  pyFindAux (s.drop start) needle start

/-- Python's substring test `needle in s`. -/
def containsSub (s needle : List Char) : Bool := (pyFind s needle 0).isSome

/-- Python `str.strip()` (whitespace from both ends). -/
def pyStrip (s : List Char) : List Char :=
  ((s.dropWhile isPySpace).reverse.dropWhile isPySpace).reverse

/-- Helper for Python `str.split()`: scans the string, accumulating the
current word in reverse. -/
def splitAux : List Char → List Char → List (List Char)
  | [], acc => if acc.isEmpty then [] else [acc.reverse]
  | c :: cs, acc =>
    if isPySpace c then
      if acc.isEmpty then splitAux cs [] else acc.reverse :: splitAux cs []
    else
      splitAux cs (c :: acc)

/-- Python `text.split()`: split on whitespace runs, dropping empty pieces. -/
def pySplit (s : List Char) : List (List Char) := splitAux s []

/-- Python `' '.join(words)`. -/
def joinSp : List (List Char) → List Char
  | [] => []
  | [w] => w
  | w :: ws => w ++ ' ' :: joinSp ws

/-- The loop of `HybridPolicyAnalyzer.chunk_text`
(src/hybrid_policy_analyzer.py lines 103-122): greedy word packing.
`cur` is `current_chunk`, `curLen` is `current_length`. -/
def chunkLoop (maxLength : Nat) : List (List Char) → List (List Char) → Nat → List (List Char)
  | [], cur, _ => if cur.isEmpty then [] else [joinSp cur]
  | w :: ws, cur, curLen =>
    if curLen + w.length + 1 > maxLength && !cur.isEmpty then
      joinSp cur :: chunkLoop maxLength ws [w] w.length
    else
      chunkLoop maxLength ws (cur ++ [w]) (curLen + w.length + 1)

/-- `HybridPolicyAnalyzer.chunk_text(text, max_length)`. -/
def chunk_text (text : List Char) (maxLength : Nat) : List (List Char) :=
  chunkLoop maxLength (pySplit text) [] 0

/-- Atoms of the regular expressions appearing in the text-based extractors.
`digitsAcc` is not written in any source pattern: it is the internal state
of matching a greedy `(\d+)` group after at least one digit has been
consumed (the accumulated digits so far). -/
inductive Atom where
  | lit : List Char → Atom
  | lazyAny : Atom
  | anyOne : Atom
  | digits : Atom
  | digitsAcc : List Char → Atom
  | spaces : Atom
  | opt : Char → Atom
deriving DecidableEq

/-- Backtracking matcher for the atom lists, with explicit fuel so that it
is structurally recursive and evaluates in the kernel.  `matchF fuel p s cap`
attempts to match `p` at the start of `s`; on success it returns the number
of characters consumed and the value of capture group 1.  Alternatives are
explored in CPython `re`'s order: `.*?` shortest first; `(\d+)`, `\s*` and
`c?` longest first; `.` never matches a newline.  Every recursive call
strictly decreases `(s.length + 1) * (p.length + 2)`, so with the fuel
chosen in `matchAtoms` the `fuel = 0` branch is unreachable. -/
def matchF : Nat → List Atom → List Char → Option (List Char) →
    Option (Nat × Option (List Char))
  | 0, _, _, _ => none
  | _ + 1, [], _, cap => some (0, cap)
  | fuel + 1, .lit l :: rest, s, cap =>
    if l.isPrefixOf s then
      match matchF fuel rest (s.drop l.length) cap with
      | some (n, cp) => some (n + l.length, cp)
      | none => none
    else none
  | fuel + 1, .anyOne :: rest, s, cap =>
    match s with
    | [] => none
    | c :: s₂ =>
      if c = '\n' then none
      else
        match matchF fuel rest s₂ cap with
        | some (n, cp) => some (n + 1, cp)
        | none => none
  | fuel + 1, .opt ch :: rest, s, cap =>
    match s with
    | c :: s₂ =>
      if c = ch then
        match matchF fuel rest s₂ cap with
        | some (n, cp) => some (n + 1, cp)
        | none => matchF fuel rest s cap
      else matchF fuel rest s cap
    | [] => matchF fuel rest [] cap
  | fuel + 1, .spaces :: rest, s, cap =>
    match s with
    | c :: s₂ =>
      if isPySpace c then
        match matchF fuel (.spaces :: rest) s₂ cap with
        | some (n, cp) => some (n + 1, cp)
        | none => matchF fuel rest s cap
      else matchF fuel rest s cap
    | [] => matchF fuel rest [] cap
  | fuel + 1, .lazyAny :: rest, s, cap =>
    match matchF fuel rest s cap with
    | some r => some r
    | none =>
      match s with
      | [] => none
      | c :: s₂ =>
        if c = '\n' then none
        else
          match matchF fuel (.lazyAny :: rest) s₂ cap with
          | some (n, cp) => some (n + 1, cp)
          | none => none
  | fuel + 1, .digits :: rest, s, cap =>
    match s with
    | [] => none
    | c :: s₂ =>
      if isDigitChar c then
        match matchF fuel (.digitsAcc [c] :: rest) s₂ cap with
        | some (n, cp) => some (n + 1, cp)
        | none => none
      else none
  | fuel + 1, .digitsAcc acc :: rest, s, cap =>
    match s with
    | c :: s₂ =>
      if isDigitChar c then
        match matchF fuel (.digitsAcc (acc ++ [c]) :: rest) s₂ cap with
        | some (n, cp) => some (n + 1, cp)
        | none => matchF fuel rest s (some acc)
      else matchF fuel rest s (some acc)
    | [] => matchF fuel rest [] (some acc)

/-- Fuel strictly exceeding the backtracking recursion depth of
`matchF` on `(p, s)`. -/
def matchBound (p : List Atom) (s : List Char) : Nat :=
  (s.length + 1) * (p.length + 2)

/-- Match the pattern `p` at the start of `s` (Python `re.match` against the
anchored prefix), returning consumed length and capture group 1. -/
def matchAtoms (p : List Atom) (s : List Char) : Option (Nat × Option (List Char)) :=
  matchF (matchBound p s) p s none

/-- The first match yielded by `re.finditer(pattern, s)` — the leftmost
one — as `(start, end, group 1)`.  Every extractor in the repository
returns on this first match. -/
def searchPat : List Atom → List Char → Nat → Option (Nat × Nat × Option (List Char))
  | p, s, pos =>
    match matchAtoms p s with
    | some (n, cp) => some (pos, pos + n, cp)
    | none =>
      match s with
      | [] => none
      | _ :: s₂ => searchPat p s₂ (pos + 1)

/-- Leftmost search from position 0. -/
def reSearch (p : List Atom) (s : List Char) : Option (Nat × Nat × Option (List Char)) :=
  searchPat p s 0

/-- Whether a compiled pattern contains capture group 1. -/
def hasGroup (p : List Atom) : Bool :=
  p.any fun a => match a with | .digits => true | _ => false

/-- The `for pattern in patterns: for match in re.finditer(...)` idiom: the
first pattern (in list order) with a match in `s`, and that pattern's first
match. -/
def firstSearch : List (List Atom) → List Char →
    Option (List Atom × Nat × Nat × Option (List Char))
  | [], _ => none
  | p :: ps, s =>
    match reSearch p s with
    | some (st, en, cp) => some (p, st, en, cp)
    | none => firstSearch ps s

/-- The Python exceptions the embedding distinguishes.  `indexError` is the
`IndexError: no such group` raised by `match.group(1)` when the compiled
pattern contains no capture group. -/
inductive PyErr where
  | indexError : PyErr
deriving DecidableEq

/-- `match.group(1)`: the captured value when group 1 exists, an
`IndexError` when the compiled pattern has no group 1. -/
def group1 (p : List Atom) (cp : Option (List Char)) : Except PyErr (Option (List Char)) :=
  if hasGroup p then .ok cp else .error .indexError

/-- `match.group(1) if match.group(1) else dflt`: Python truthiness of the
group value (absent or empty falls back to the default). -/
def groupOrDefault (g : Option (List Char)) (dflt : List Char) : List Char :=
  match g with
  | some d => if d.isEmpty then dflt else d
  | none => dflt

/-- The sentinel every extractor returns when no pattern matched. -/
def notFoundSentinel : List Char := str "Information not found in the document"

/-- `text[max(0, start - radius) : min(len(text), end + radius)]`, the
context window the non-numeric extractors return around a match.  Natural
subtraction is exactly Python's `max(0, start - radius)`. -/
def contextWindow (text : List Char) (st en radius : Nat) : List Char :=
  pySlice text (st - radius) (min text.length (en + radius))

/-- `r'grace period.*?(\d+)\s*days?'` -/
def gracePat1 : List Atom :=
  [.lit (str "grace period"), .lazyAny, .digits, .spaces, .lit (str "day"), .opt 's']

/-- `r'(\d+)\s*days?.*?grace period'` -/
def gracePat2 : List Atom :=
  [.digits, .spaces, .lit (str "day"), .opt 's', .lazyAny, .lit (str "grace period")]

/-- `r'grace period.*?thirty\s*days?'` — no capture group. -/
def gracePat3 : List Atom :=
  [.lit (str "grace period"), .lazyAny, .lit (str "thirty"), .spaces, .lit (str "day"), .opt 's']

/-- `r'thirty\s*days?.*?grace period'` — no capture group. -/
def gracePat4 : List Atom :=
  [.lit (str "thirty"), .spaces, .lit (str "day"), .opt 's', .lazyAny, .lit (str "grace period")]

/-- The ordered pattern list of `TextBasedPolicyAnalyzer.extract_grace_period`. -/
def gracePeriodPatterns : List (List Atom) := [gracePat1, gracePat2, gracePat3, gracePat4]

/-- `TextBasedPolicyAnalyzer.extract_grace_period`
(src/text_based_analyzer.py lines 77-91).  On the first match of the first
matching pattern it evaluates `match.group(1) if match.group(1) else '30'`
— which raises `IndexError` when the pattern has no group 1. -/
def extract_grace_period (text : List Char) : Except PyErr (List Char) :=
  match firstSearch gracePeriodPatterns (pyLower text) with
  | some (p, _, _, cp) =>
    match group1 p cp with
    | .error e => .error e
    | .ok g => .ok (str "Grace period: " ++ groupOrDefault g (str "30") ++ str " days")
  | none => .ok notFoundSentinel

/-- The ordered pattern list of `extract_waiting_period_ped`
(lines 95-101); the last two patterns have no capture group. -/
def pedPatterns : List (List Atom) :=
  [ [.lit (str "pre-existing disease"), .lazyAny, .digits, .spaces, .lit (str "month"), .opt 's'],
    [.digits, .spaces, .lit (str "month"), .opt 's', .lazyAny, .lit (str "pre-existing disease")],
    [.lit (str "ped"), .lazyAny, .digits, .spaces, .lit (str "month"), .opt 's'],
    [.lit (str "thirty-six"), .spaces, .lit (str "month"), .opt 's', .lazyAny, .lit (str "pre-existing")],
    [.lit (str "36"), .spaces, .lit (str "month"), .opt 's', .lazyAny, .lit (str "pre-existing")] ]

/-- `TextBasedPolicyAnalyzer.extract_waiting_period_ped` (lines 93-109). -/
def extract_waiting_period_ped (text : List Char) : Except PyErr (List Char) :=
  match firstSearch pedPatterns (pyLower text) with
  | some (p, _, _, cp) =>
    match group1 p cp with
    | .error e => .error e
    | .ok g =>
      .ok (str "Waiting period for pre-existing diseases (PED): " ++
           groupOrDefault g (str "36") ++ str " months of continuous coverage")
  | none => .ok notFoundSentinel

/-- Pattern list of `extract_maternity_coverage` (lines 113-118). -/
def maternityPatterns : List (List Atom) :=
  [ [.lit (str "maternity"), .lazyAny, .lit (str "expense"), .opt 's', .lazyAny, .lit (str "covered")],
    [.lit (str "maternity"), .lazyAny, .lit (str "benefit"), .opt 's'],
    [.lit (str "pregnancy"), .lazyAny, .lit (str "expense"), .opt 's'],
    [.lit (str "childbirth"), .lazyAny, .lit (str "expense"), .opt 's'] ]

/-- `TextBasedPolicyAnalyzer.extract_maternity_coverage` (lines 111-129):
returns a ±1000-character window of the original-case text around the
match found in the lowercased text. -/
def extract_maternity_coverage (text : List Char) : Except PyErr (List Char) :=
  match firstSearch maternityPatterns (pyLower text) with
  | some (_, st, en, _) =>
    .ok (str "Maternity coverage found: " ++ contextWindow text st en 1000)
  | none => .ok notFoundSentinel

/-- Pattern list of `extract_cataract_waiting_period` (lines 133-138); the
last two patterns have no capture group. -/
def cataractPatterns : List (List Atom) :=
  [ [.lit (str "cataract"), .lazyAny, .digits, .spaces, .lit (str "month"), .opt 's'],
    [.digits, .spaces, .lit (str "month"), .opt 's', .lazyAny, .lit (str "cataract")],
    [.lit (str "cataract"), .lazyAny, .lit (str "waiting period")],
    [.lit (str "waiting period"), .lazyAny, .lit (str "cataract")] ]

/-- `TextBasedPolicyAnalyzer.extract_cataract_waiting_period` (lines 131-146). -/
def extract_cataract_waiting_period (text : List Char) : Except PyErr (List Char) :=
  match firstSearch cataractPatterns (pyLower text) with
  | some (p, _, _, cp) =>
    match group1 p cp with
    | .error e => .error e
    | .ok g =>
      .ok (str "Waiting period for cataract surgery: " ++
           groupOrDefault g (str "specified") ++ str " months")
  | none => .ok notFoundSentinel

/-- Pattern list of `extract_organ_donor_coverage` (lines 150-155). -/
def organDonorPatterns : List (List Atom) :=
  [ [.lit (str "organ donor"), .lazyAny, .lit (str "expense"), .opt 's'],
    [.lit (str "organ donor"), .lazyAny, .lit (str "covered")],
    [.lit (str "donor"), .lazyAny, .lit (str "medical expense"), .opt 's'],
    [.lit (str "organ"), .lazyAny, .lit (str "donor"), .lazyAny, .lit (str "cost"), .opt 's'] ]

/-- `TextBasedPolicyAnalyzer.extract_organ_donor_coverage` (lines 148-165). -/
def extract_organ_donor_coverage (text : List Char) : Except PyErr (List Char) :=
  match firstSearch organDonorPatterns (pyLower text) with
  | some (_, st, en, _) =>
    .ok (str "Organ donor coverage found: " ++ contextWindow text st en 1000)
  | none => .ok notFoundSentinel

/-- Pattern list of `extract_ncd_information` (lines 169-175); every
pattern has a capture group. -/
def ncdPatterns : List (List Atom) :=
  [ [.lit (str "no claim discount"), .lazyAny, .digits, .spaces, .lit (str "percent")],
    [.lit (str "ncd"), .lazyAny, .digits, .spaces, .lit (str "percent")],
    [.digits, .spaces, .lit (str "percent"), .lazyAny, .lit (str "no claim discount")],
    [.lit (str "no claim discount"), .lazyAny, .digits, .spaces, .lit (str "%")],
    [.digits, .spaces, .lit (str "%"), .lazyAny, .lit (str "no claim discount")] ]

/-- `TextBasedPolicyAnalyzer.extract_ncd_information` (lines 167-183). -/
def extract_ncd_information (text : List Char) : Except PyErr (List Char) :=
  match firstSearch ncdPatterns (pyLower text) with
  | some (p, _, _, cp) =>
    match group1 p cp with
    | .error e => .error e
    | .ok g =>
      .ok (str "No Claim Discount (NCD): " ++ groupOrDefault g (str "specified") ++ str "%")
  | none => .ok notFoundSentinel

/-- Pattern list of `extract_preventive_health_check` (lines 187-192). -/
def preventivePatterns : List (List Atom) :=
  [ [.lit (str "preventive"), .lazyAny, .lit (str "health check")],
    [.lit (str "health check"), .lazyAny, .lit (str "benefit")],
    [.lit (str "preventive"), .lazyAny, .lit (str "medical")],
    [.lit (str "annual"), .lazyAny, .lit (str "health check")] ]

/-- `TextBasedPolicyAnalyzer.extract_preventive_health_check` (lines 185-202). -/
def extract_preventive_health_check (text : List Char) : Except PyErr (List Char) :=
  match firstSearch preventivePatterns (pyLower text) with
  | some (_, st, en, _) =>
    .ok (str "Preventive health check benefit found: " ++ contextWindow text st en 1000)
  | none => .ok notFoundSentinel

/-- Pattern list of `extract_hospital_definition` (lines 206-210). -/
def hospitalPatterns : List (List Atom) :=
  [ [.lit (str "hospital"), .lazyAny, .lit (str "means"), .lazyAny, .lit (str "institution")],
    [.lit (str "definition"), .lazyAny, .lit (str "hospital")],
    [.lit (str "hospital"), .lazyAny, .lit (str "definition")] ]

/-- `TextBasedPolicyAnalyzer.extract_hospital_definition` (lines 204-229):
a ±2000-character window, then `context.find('Hospital')` and
`context.find('.', definition_start + 100)` to cut out the definition
sentence. -/
def extract_hospital_definition (text : List Char) : Except PyErr (List Char) :=
  match firstSearch hospitalPatterns (pyLower text) with
  | some (_, st, en, _) =>
    let context := contextWindow text st en 2000
    match pyFind context (str "Hospital") 0 with
    | some defStart =>
      match pyFind context (str ".") (defStart + 100) with
      | some defEnd =>
        .ok (str "Hospital Definition: " ++ pySlice context defStart (defEnd + 1))
      | none => .ok (str "Hospital definition found: " ++ context)
    | none => .ok (str "Hospital definition found: " ++ context)
  | none => .ok notFoundSentinel

/-- Pattern list of `extract_ayush_coverage` (lines 233-238). -/
def ayushPatterns : List (List Atom) :=
  [ [.lit (str "ayush"), .lazyAny, .lit (str "treatment")],
    [.lit (str "ayush"), .lazyAny, .lit (str "coverage")],
    [.lit (str "ayurveda"), .lazyAny, .lit (str "yoga"), .lazyAny, .lit (str "naturopathy")],
    [.lit (str "ayush"), .lazyAny, .lit (str "day care")] ]

/-- `TextBasedPolicyAnalyzer.extract_ayush_coverage` (lines 231-248). -/
def extract_ayush_coverage (text : List Char) : Except PyErr (List Char) :=
  match firstSearch ayushPatterns (pyLower text) with
  | some (_, st, en, _) =>
    .ok (str "AYUSH coverage found: " ++ contextWindow text st en 1500)
  | none => .ok notFoundSentinel

/-- Pattern list of `extract_room_rent_limits` (lines 252-258); the regex
`.` in `sub.limit` is the any-character metacharacter. -/
def roomRentPatterns : List (List Atom) :=
  [ [.lit (str "room rent"), .lazyAny, .lit (str "sub"), .anyOne, .lit (str "limit")],
    [.lit (str "icu"), .lazyAny, .lit (str "charges"), .lazyAny, .lit (str "sub"), .anyOne, .lit (str "limit")],
    [.lit (str "room rent"), .lazyAny, .lit (str "limit")],
    [.lit (str "icu"), .lazyAny, .lit (str "limit")],
    [.lit (str "plan a"), .lazyAny, .lit (str "room rent")],
    [.lit (str "plan a"), .lazyAny, .lit (str "icu")] ]

/-- `TextBasedPolicyAnalyzer.extract_room_rent_limits` (lines 250-269). -/
def extract_room_rent_limits (text : List Char) : Except PyErr (List Char) :=
  match firstSearch roomRentPatterns (pyLower text) with
  | some (_, st, en, _) =>
    .ok (str "Room rent/ICU sub-limits found: " ++ contextWindow text st en 1000)
  | none => .ok notFoundSentinel

/-- The sentinel returned when no category dispatch condition holds. -/
def notRecognizedSentinel : List Char :=
  str "Question pattern not recognized for text-based analysis"

/-- `TextBasedPolicyAnalyzer.analyze_question` (lines 271-296): substring
dispatch on the lowercased question, first matching branch wins. -/
def analyze_question (text question : List Char) : Except PyErr (List Char) :=
  let q := pyLower question
  if containsSub q (str "grace period") && containsSub q (str "premium") then
    extract_grace_period text
  else if containsSub q (str "waiting period") && containsSub q (str "pre-existing") then
    extract_waiting_period_ped text
  else if containsSub q (str "maternity") && containsSub q (str "expenses") then
    extract_maternity_coverage text
  else if containsSub q (str "cataract") && containsSub q (str "surgery") then
    extract_cataract_waiting_period text
  else if containsSub q (str "organ donor") && containsSub q (str "expenses") then
    extract_organ_donor_coverage text
  else if containsSub q (str "no claim discount") || containsSub q (str "ncd") then
    extract_ncd_information text
  else if containsSub q (str "preventive") && containsSub q (str "health check") then
    extract_preventive_health_check text
  else if containsSub q (str "hospital") && containsSub q (str "define") then
    extract_hospital_definition text
  else if containsSub q (str "ayush") && containsSub q (str "coverage") then
    extract_ayush_coverage text
  else if containsSub q (str "room rent") && containsSub q (str "icu") && containsSub q (str "plan a") then
    extract_room_rent_limits text
  else
    .ok notRecognizedSentinel

/-- One `{'question': ..., 'answer': ...}` record of the text-based and
efficient analyzers. -/
structure AnswerRec where
  question : List Char
  answer : List Char
deriving DecidableEq

/-- `TextBasedPolicyAnalyzer.extract_pdf_text` (lines 38-55).  The parsed
PDF is an `Except`: `.error` models `PyPDF2` raising (the `except` clause
prints and returns `""`), `.ok pages` the per-page text layers.  Page
banners are inserted exactly as the f-string does. -/
def extract_pdf_text (pdf : Except Unit (List (List Char))) : List Char :=
  match pdf with
  | .error _ => []
  | .ok pages => pagesText pages 0
where
  /-- The page loop: `"\n--- Page {i+1} ---\n" + page_text + "\n"` per page. -/
  pagesText : List (List Char) → Nat → List Char
    | [], _ => []
    | p :: ps, n =>
      str "\n--- Page " ++ (Nat.repr (n + 1)).toList ++ str " ---\n" ++ p ++ ['\n'] ++
        pagesText ps (n + 1)

/-- The question loop of `TextBasedPolicyAnalyzer.analyze_policy`
(lines 320-337).  Returns the accumulated answer records, or the first
uncaught exception, together with the number of `analyze_question`
invocations made. -/
def runQuestions (text : List Char) : List (List Char) → Except PyErr (List AnswerRec) × Nat
  | [] => (.ok [], 0)
  | q :: qs =>
    match analyze_question text q with
    | .error e => (.error e, 1)
    | .ok a =>
      match runQuestions text qs with
      | (.error e, n) => (.error e, n + 1)
      | (.ok rest, n) => (.ok (⟨q, a⟩ :: rest), n + 1)

/-- `TextBasedPolicyAnalyzer.analyze_policy` (lines 298-345).
`downloadOk` is whether `download_pdf` returned a filename; `pdf` is the
parse outcome fed to `extract_pdf_text`.  `.ok none` is the `return None`
path (download failure or blank text); the second component counts
`analyze_question` invocations. -/
def analyze_policy (downloadOk : Bool) (pdf : Except Unit (List (List Char)))
    (questions : List (List Char)) :
    Except PyErr (Option (List AnswerRec)) × Nat :=
  if !downloadOk then (.ok none, 0)
  else
    let text := extract_pdf_text pdf
    if (pyStrip text).isEmpty then (.ok none, 0)
    else
      match runQuestions text questions with
      | (.error e, n) => (.error e, n)
      | (.ok answers, n) => (.ok (some answers), n)

/-- A retrieved chunk as `search_relevant_chunks` returns it
(src/hybrid_policy_analyzer.py lines 159-184); the float relevance score
only flows into the prompt text and is not modelled. -/
structure HChunk where
  text : List Char
  page : Nat
  chunk : Nat

/-- One answer record of `HybridPolicyAnalyzer.analyze_policy`
(`{'question', 'answer', 'relevant_chunks'}`). -/
structure HAnswer where
  question : List Char
  answer : List Char
  relevantChunks : Nat
deriving DecidableEq

/-- `HybridPolicyAnalyzer.answer_with_gemini` (lines 186-219), with the
opaque `generate_content` call for the prompt built from this question and
these chunks passed in as its outcome (`.error e` models the call raising,
caught and embedded in the answer).  Returns the answer and the number of
language-model calls made. -/
def answer_with_gemini (generate : Except (List Char) (List Char))
    (chunks : List HChunk) : List Char × Nat :=
  if chunks.isEmpty then (str "No relevant information found in the document.", 0)
  else
    match generate with
    | .ok t => (t, 1)
    | .error e => (str "❌ Error generating answer: " ++ e, 1)

/-- The per-question body of the loop in `HybridPolicyAnalyzer.analyze_policy`
(lines 251-273): query the index (`search`), and either call
`answer_with_gemini` or record the no-relevant-information answer. -/
def hybridAnswerFor (search : List Char → List HChunk)
    (generate : List Char → List HChunk → Except (List Char) (List Char))
    (question : List Char) : HAnswer × Nat :=
  let chunks := search question
  if !chunks.isEmpty then
    let (a, n) := answer_with_gemini (generate question chunks) chunks
    (⟨question, a, chunks.length⟩, n)
  else
    (⟨question, str "No relevant information found in the document.", 0⟩, 0)

/-- The question loop of `HybridPolicyAnalyzer.analyze_policy`
(lines 248-278), with the language-model call count accumulated. -/
def hybridLoop (search : List Char → List HChunk)
    (generate : List Char → List HChunk → Except (List Char) (List Char)) :
    List (List Char) → List HAnswer × Nat
  | [] => ([], 0)
  | q :: qs =>
    let (a, n) := hybridAnswerFor search generate q
    let (rest, m) := hybridLoop search generate qs
    (a :: rest, n + m)

/-- `HybridPolicyAnalyzer.analyze_policy` (lines 221-286): `none` models
the `return None` paths (download failure, no text chunks, upload failure). -/
def hybrid_analyze_policy (downloadOk : Bool) (textChunks : List (List Char))
    (uploadOk : Bool) (search : List Char → List HChunk)
    (generate : List Char → List HChunk → Except (List Char) (List Char))
    (questions : List (List Char)) : Option (List HAnswer × Nat) :=
  if !downloadOk then none
  else if textChunks.isEmpty then none
  else if !uploadOk then none
  else some (hybridLoop search generate questions)

/-- Outcome of one `gemini_model.generate_content(prompt)` call in the
efficient analyzer: the response text, or the `str(e)` of the exception it
raised. -/
inductive GenOutcome where
  | ok : List Char → GenOutcome
  | err : List Char → GenOutcome

/-- The `try/except` tail of
`EfficientPolicyAnalyzer.analyze_with_optimized_search`
(src/efficient_policy_analyzer.py lines 150-164), with the outcomes of the
first call and of the (at most one) retry passed in.  Returns
`(answer, number of generate calls, seconds slept before the retry)`. -/
def analyze_with_optimized_search (first second : GenOutcome) : List Char × Nat × Nat :=
  match first with
  | .ok t => (t, 1, 0)
  | .err e =>
    if containsSub e (str "429") then
      match second with
      | .ok t => (t, 2, 60)
      | .err e2 => (str "Error after retry: " ++ e2, 2, 60)
    else
      (str "Error in analysis: " ++ e, 1, 0)

/-- The found-answer test of the text-based `main` (lines 386-387):
`"Information not found" not in answer and "not recognized" not in answer`. -/
def isFound (answer : List Char) : Bool :=
  !containsSub answer (str "Information not found") && !containsSub answer (str "not recognized")

/-- `found_count` of the text-based `main`. -/
def foundCount (results : List AnswerRec) : Nat :=
  (results.filter fun r => isFound r.answer).length

/-- The accuracy computation of the text-based `main` (lines 376-395):
inside `if results:` (so only for a nonempty result list) it computes
`(found_count / total_questions) * 100`. -/
def mainAccuracy (results : List AnswerRec) (totalQuestions : Nat) : Option ℚ :=
  if results.isEmpty then none
  else some (((foundCount results : ℚ) / (totalQuestions : ℚ)) * 100)

/-- The found-answer test of the efficient `main`
(src/efficient_policy_analyzer.py line 282): only the
`"Information not found"` marker is excluded there. -/
def efficientFoundCount (results : List AnswerRec) : Nat :=
  (results.filter fun r => !containsSub r.answer (str "Information not found")).length

/-- The accuracy computation of the efficient `main` (lines 272-291),
guarded by the same `if results:` check. -/
def efficientMainAccuracy (results : List AnswerRec) (totalQuestions : Nat) : Option ℚ :=
  if results.isEmpty then none
  else some (((efficientFoundCount results : ℚ) / (totalQuestions : ℚ)) * 100)

/-- Modelled from the words of the claim, for comparison with
`mainAccuracy`: the count of answers containing neither a `"not found"`
nor a `"not recognized"` substring, divided by the total number of
questions (no percent scaling). -/
def claimedAccuracy (results : List AnswerRec) (totalQuestions : Nat) : ℚ :=
  (((results.filter fun r =>
      !containsSub r.answer (str "not found") &&
      !containsSub r.answer (str "not recognized")).length : ℚ) / (totalQuestions : ℚ))

/-! ## Claim theorems -/

/-- C1: the claim says the rule-based answerer never raises.  It is the
code that is wrong: for the grace-period question and a text matching only
the group-less pattern `r'grace period.*?thirty\s*days?'`, the expression
`match.group(1) if match.group(1) else '30'` raises
`IndexError: no such group` instead of falling back to `'30'`. -/
theorem c1_grace_period_raises_index_error :
    analyze_question (str "grace period of thirty days")
      (str "What is the grace period for premium payment?") = .error .indexError := by
  rfl

/-- C5: for a question containing both `grace period` and `premium`
(lowercased) and a text on which the first match of the grace-period
pattern list is a match of the first pattern capturing `30` (as in
`... grace period of 30 days ...`), `analyze_question` returns exactly
`Grace period: 30 days`. -/
theorem c5_grace_period_scenario (text question : List Char) (st en : Nat)
    (hq1 : containsSub (pyLower question) (str "grace period") = true)
    (hq2 : containsSub (pyLower question) (str "premium") = true)
    (hfirst : firstSearch gracePeriodPatterns (pyLower text) =
      some (gracePat1, st, en, some (str "30"))) :
    analyze_question text question = .ok (str "Grace period: 30 days") := by
  unfold analyze_question
  simp only [hq1, hq2, Bool.and_self, if_true]
  unfold extract_grace_period
  rw [hfirst]
  rfl

/-- Witness for C5 at the text `grace period of 30 days`. -/
theorem c5_grace_period_scenario_witness :
    analyze_question (str "grace period of 30 days")
      (str "What is the grace period for premium payment?") =
      .ok (str "Grace period: 30 days") :=
  c5_grace_period_scenario (str "grace period of 30 days")
    (str "What is the grace period for premium payment?") 0 23
    (by decide) (by decide) (by rfl)

/-- C6: in `analyze_with_optimized_search`, a first-call failure whose
message contains `429` is retried exactly once after the fixed 60-second
cooldown (so exactly two generate calls, never more); a failing retry and
every non-quota error are returned as error strings in the answer (the
function is total — nothing is raised to the caller). -/
theorem c6_retry_once_on_quota (first second : GenOutcome) :
    (analyze_with_optimized_search first second).2.1 ≤ 2 ∧
    (∀ e, first = .err e → containsSub e (str "429") = true →
      (analyze_with_optimized_search first second).2.1 = 2 ∧
      (analyze_with_optimized_search first second).2.2 = 60 ∧
      (∀ e2, second = .err e2 →
        (analyze_with_optimized_search first second).1 = str "Error after retry: " ++ e2)) ∧
    (∀ e, first = .err e → containsSub e (str "429") = false →
      analyze_with_optimized_search first second =
        (str "Error in analysis: " ++ e, 1, 0)) := by
  refine ⟨?_, ?_, ?_⟩
  · cases first with
    | ok t => simp [analyze_with_optimized_search]
    | err e =>
      cases second <;>
        simp [analyze_with_optimized_search] <;>
        split <;> simp
  · rintro e rfl h429
    cases second with
    | ok t => simp [analyze_with_optimized_search, h429]
    | err e2 => simp [analyze_with_optimized_search, h429]
  · rintro e rfl h429
    simp [analyze_with_optimized_search, h429]

/-- Witness for C6: a 429 first failure with a failing retry, and a
non-quota failure. -/
theorem c6_retry_once_on_quota_witness :
    ((analyze_with_optimized_search (.err (str "429 quota exceeded")) (.err (str "boom"))).2.1 = 2 ∧
     (analyze_with_optimized_search (.err (str "429 quota exceeded")) (.err (str "boom"))).2.2 = 60 ∧
     (analyze_with_optimized_search (.err (str "429 quota exceeded")) (.err (str "boom"))).1 =
       str "Error after retry: " ++ str "boom") ∧
    analyze_with_optimized_search (.err (str "permission denied")) (.ok (str "t")) =
      (str "Error in analysis: " ++ str "permission denied", 1, 0) := by
  constructor
  · obtain ⟨h1, h2, h3⟩ :=
      (c6_retry_once_on_quota (.err (str "429 quota exceeded")) (.err (str "boom"))).2.1
        (str "429 quota exceeded") rfl (by decide)
    exact ⟨h1, h2, h3 (str "boom") rfl⟩
  · exact (c6_retry_once_on_quota (.err (str "permission denied")) (.ok (str "t"))).2.2
      (str "permission denied") rfl (by decide)

/-- C7 counterexample: when the index query returns zero chunks, the
recorded answer carries a trailing period —
`No relevant information found in the document.` — and therefore is not
the exact string the claim quotes. -/
theorem c7_counterexample :
    (hybridAnswerFor (fun _ => []) (fun _ _ => .ok []) (str "q")).1.answer =
      str "No relevant information found in the document." ∧
    str "No relevant information found in the document." ≠
      str "No relevant information found in the document" := by
  exact ⟨rfl, by decide⟩

/-- C7 (amended): for every question whose index query returns zero
chunks, the hybrid per-question step records the answer
`No relevant information found in the document.` (with the trailing
period) and performs zero language-model calls. -/
theorem c7_no_chunks_skips_llm (search : List Char → List HChunk)
    (generate : List Char → List HChunk → Except (List Char) (List Char))
    (question : List Char) (h : search question = []) :
    (hybridAnswerFor search generate question).1.answer =
      str "No relevant information found in the document." ∧
    (hybridAnswerFor search generate question).2 = 0 := by
  simp [hybridAnswerFor, h]

/-- Witness for C7 at a concrete empty search result. -/
theorem c7_no_chunks_skips_llm_witness :
    (hybridAnswerFor (fun _ => []) (fun _ _ => .ok (str "ans")) (str "what")).1.answer =
      str "No relevant information found in the document." ∧
    (hybridAnswerFor (fun _ => []) (fun _ _ => .ok (str "ans")) (str "what")).2 = 0 :=
  c7_no_chunks_skips_llm (fun _ => []) (fun _ _ => .ok (str "ans")) (str "what") rfl

/-- C10: a PDF whose parsing raises and a PDF with zero pages both make
`extract_pdf_text` return the empty string, and on both `analyze_policy`
returns the no-content `None` result having invoked the rule-based
answerer zero times. -/
theorem c10_extraction_failure_indistinguishable :
    extract_pdf_text (.error ()) = extract_pdf_text (.ok []) ∧
    extract_pdf_text (.error ()) = [] ∧
    (∀ questions, analyze_policy true (.error ()) questions = (.ok none, 0)) ∧
    (∀ questions, analyze_policy true (.ok []) questions = (.ok none, 0)) :=
  ⟨rfl, rfl, fun _ => rfl, fun _ => rfl⟩

/-- C8: a question satisfying none of the ten substring dispatch
conditions gets exactly the fixed not-recognized sentinel. -/
theorem c8_unmatched_question_sentinel (text question : List Char)
    (h1 : (containsSub (pyLower question) (str "grace period") &&
           containsSub (pyLower question) (str "premium")) = false)
    (h2 : (containsSub (pyLower question) (str "waiting period") &&
           containsSub (pyLower question) (str "pre-existing")) = false)
    (h3 : (containsSub (pyLower question) (str "maternity") &&
           containsSub (pyLower question) (str "expenses")) = false)
    (h4 : (containsSub (pyLower question) (str "cataract") &&
           containsSub (pyLower question) (str "surgery")) = false)
    (h5 : (containsSub (pyLower question) (str "organ donor") &&
           containsSub (pyLower question) (str "expenses")) = false)
    (h6 : (containsSub (pyLower question) (str "no claim discount") ||
           containsSub (pyLower question) (str "ncd")) = false)
    (h7 : (containsSub (pyLower question) (str "preventive") &&
           containsSub (pyLower question) (str "health check")) = false)
    (h8 : (containsSub (pyLower question) (str "hospital") &&
           containsSub (pyLower question) (str "define")) = false)
    (h9 : (containsSub (pyLower question) (str "ayush") &&
           containsSub (pyLower question) (str "coverage")) = false)
    (h10 : (containsSub (pyLower question) (str "room rent") &&
            containsSub (pyLower question) (str "icu") &&
            containsSub (pyLower question) (str "plan a")) = false) :
    analyze_question text question = .ok notRecognizedSentinel := by
  unfold analyze_question
  simp only [h1, h2, h3, h4, h5, h6, h7, h8, h9, h10, Bool.false_eq_true, if_false]

/-- Witness for C8 at the spec's own example question. -/
theorem c8_unmatched_question_sentinel_witness :
    analyze_question (str "some policy text")
      (str "What color is the cover page?") = .ok notRecognizedSentinel :=
  c8_unmatched_question_sentinel (str "some policy text")
    (str "What color is the cover page?")
    (by decide) (by decide) (by decide) (by decide) (by decide)
    (by decide) (by decide) (by decide) (by decide) (by decide)

/-- The question loop of the text-based analyzer produces, on success, one
answer per question carrying that question, in order. -/
theorem runQuestions_map_question (text : List Char) :
    ∀ (qs : List (List Char)) (answers : List AnswerRec) (n : Nat),
      runQuestions text qs = (.ok answers, n) →
      answers.map AnswerRec.question = qs := by
  intro qs
  induction qs with
  | nil =>
    intro answers n h
    simp only [runQuestions] at h
    cases h
    rfl
  | cons q qs ih =>
    intro answers n h
    simp only [runQuestions] at h
    cases ha : analyze_question text q with
    | error e => rw [ha] at h; cases h
    | ok a =>
      rw [ha] at h
      cases hr : runQuestions text qs with
      | mk r m =>
        cases r with
        | error e => rw [hr] at h; cases h
        | ok rest =>
          rw [hr] at h
          cases h
          simpa using ih rest m hr

/-- The hybrid question loop produces one answer per question carrying
that question, in order (unconditionally — its failures are embedded). -/
theorem hybridLoop_map_question (search : List Char → List HChunk)
    (generate : List Char → List HChunk → Except (List Char) (List Char)) :
    ∀ qs : List (List Char),
      ((hybridLoop search generate qs).1).map HAnswer.question = qs := by
  intro qs
  induction qs with
  | nil => rfl
  | cons q qs ih =>
    simp only [hybridLoop]
    cases h : hybridAnswerFor search generate q with
    | mk a n =>
      have ha : a.question = q := by
        simp only [hybridAnswerFor] at h
        split at h <;> (injection h with h1 h2; subst h1; rfl)
      simpa [ha] using ih

/-- C9: whenever a run of `analyze_policy` completes successfully (and
likewise for the hybrid variant), the answer list has exactly one record
per input question, each carrying its question, in the caller's order:
mapping the question projection over the answers gives back the question
list. -/
theorem c9_answers_one_to_one :
    (∀ (downloadOk : Bool) (pdf : Except Unit (List (List Char)))
       (questions : List (List Char)) (answers : List AnswerRec) (n : Nat),
      analyze_policy downloadOk pdf questions = (.ok (some answers), n) →
      answers.map AnswerRec.question = questions) ∧
    (∀ (downloadOk : Bool) (textChunks : List (List Char)) (uploadOk : Bool)
       (search : List Char → List HChunk)
       (generate : List Char → List HChunk → Except (List Char) (List Char))
       (questions : List (List Char)) (result : List HAnswer × Nat),
      hybrid_analyze_policy downloadOk textChunks uploadOk search generate questions =
        some result →
      result.1.map HAnswer.question = questions) := by
  constructor
  · intro downloadOk pdf questions answers n h
    simp only [analyze_policy] at h
    split at h
    · cases h
    · split at h
      · cases h
      · cases hr : runQuestions (extract_pdf_text pdf) questions with
        | mk r m =>
          cases r with
          | error e => rw [hr] at h; cases h
          | ok answers2 =>
            rw [hr] at h
            cases h
            exact runQuestions_map_question _ _ _ _ hr
  · intro downloadOk textChunks uploadOk search generate questions result h
    simp only [hybrid_analyze_policy] at h
    split at h
    · cases h
    · split at h
      · cases h
      · split at h
        · cases h
        · cases h
          exact hybridLoop_map_question search generate questions

/-- Witness for C9: a one-page document, one unrecognized question for the
text-based analyzer, one zero-match question for the hybrid one. -/
theorem c9_answers_one_to_one_witness :
    ([⟨str "hi", notRecognizedSentinel⟩] : List AnswerRec).map AnswerRec.question =
      [str "hi"] ∧
    ([⟨str "q", str "No relevant information found in the document.", 0⟩] :
        List HAnswer).map HAnswer.question = [str "q"] := by
  constructor
  · exact c9_answers_one_to_one.1 true (.ok [str "hello"]) [str "hi"]
      [⟨str "hi", notRecognizedSentinel⟩] 1 (by rfl)
  · exact c9_answers_one_to_one.2 true [str "chunk"] true (fun _ => [])
      (fun _ _ => .ok (str "ans")) [str "q"]
      ([⟨str "q", str "No relevant information found in the document.", 0⟩], 0) (by rfl)

/-! ## Word-level facts about `pySplit`, `joinSp` and the chunker -/

/-- Every word produced by `splitAux` with a whitespace-free accumulator is
nonempty and whitespace-free. -/
theorem splitAux_words_wf :
    ∀ (s acc : List Char), (∀ c ∈ acc, isPySpace c = false) →
      ∀ w ∈ splitAux s acc, w ≠ [] ∧ ∀ c ∈ w, isPySpace c = false := by
  intro s
  induction s with
  | nil =>
    intro acc hacc w hw
    simp only [splitAux] at hw
    split at hw
    · cases hw
    · rename_i hne
      simp only [List.mem_singleton] at hw
      subst hw
      refine ⟨?_, ?_⟩
      · simp only [ne_eq, List.reverse_eq_nil_iff]
        intro h
        rw [h] at hne
        simp at hne
      · intro c hc
        exact hacc c (List.mem_reverse.mp hc)
  | cons c cs ih =>
    intro acc hacc w hw
    simp only [splitAux] at hw
    by_cases hsp : isPySpace c = true
    · rw [if_pos hsp] at hw
      split at hw
      · exact ih [] (by intro x hx; cases hx) w hw
      · rename_i hne
        rcases List.mem_cons.mp hw with hw | hw
        · subst hw
          refine ⟨?_, ?_⟩
          · simp only [ne_eq, List.reverse_eq_nil_iff]
            intro h
            rw [h] at hne
            simp at hne
          · intro x hx
            exact hacc x (List.mem_reverse.mp hx)
        · exact ih [] (by intro x hx; cases hx) w hw
    · rw [if_neg hsp] at hw
      refine ih (c :: acc) ?_ w hw
      intro x hx
      rcases List.mem_cons.mp hx with rfl | hx
      · exact Bool.eq_false_iff.mpr hsp
      · exact hacc x hx

/-- Every word of `pySplit s` is nonempty and whitespace-free. -/
theorem pySplit_words_wf (s : List Char) :
    ∀ w ∈ pySplit s, w ≠ [] ∧ ∀ c ∈ w, isPySpace c = false :=
  splitAux_words_wf s [] (by intro c hc; cases hc)

/-- Scanning a whitespace-free word pushes it onto the accumulator. -/
theorem splitAux_push_word :
    ∀ (w s acc : List Char), (∀ c ∈ w, isPySpace c = false) →
      splitAux (w ++ s) acc = splitAux s (w.reverse ++ acc) := by
  intro w
  induction w with
  | nil => intro s acc _; simp
  | cons c w ih =>
    intro s acc h
    have hc : isPySpace c = false := h c (List.mem_cons_self c w)
    have h2 : splitAux ((c :: w) ++ s) acc = splitAux (w ++ s) (c :: acc) := by
      simp only [List.cons_append, splitAux, hc, Bool.false_eq_true, if_false,
        List.append_eq]
    rw [h2, ih s (c :: acc) (fun x hx => h x (List.mem_cons_of_mem c hx))]
    simp [List.append_assoc]

/-- Splitting the space-join of nonempty whitespace-free words recovers
exactly the word list. -/
theorem pySplit_joinSp :
    ∀ ws : List (List Char),
      (∀ w ∈ ws, w ≠ [] ∧ ∀ c ∈ w, isPySpace c = false) →
      pySplit (joinSp ws) = ws := by
  intro ws
  induction ws with
  | nil => intro _; rfl
  | cons w ws ih =>
    intro h
    obtain ⟨hw, hwc⟩ := h w (List.mem_cons_self w ws)
    cases ws with
    | nil =>
      show splitAux (joinSp [w]) [] = [w]
      have hj : joinSp [w] = w := rfl
      rw [hj, show (w : List Char) = w ++ [] from (List.append_nil w).symm,
        splitAux_push_word w [] [] hwc]
      have hne : (w.reverse ++ []).isEmpty = false := by
        simp [List.isEmpty_iff, hw]
      simp only [splitAux, hne, Bool.false_eq_true, if_false]
      simp
    | cons w2 ws2 =>
      show splitAux (joinSp (w :: w2 :: ws2)) [] = w :: w2 :: ws2
      have hj : joinSp (w :: w2 :: ws2) = w ++ ' ' :: joinSp (w2 :: ws2) := rfl
      rw [hj, splitAux_push_word w (' ' :: joinSp (w2 :: ws2)) [] hwc]
      have hsp : isPySpace ' ' = true := rfl
      have hne : (w.reverse ++ []).isEmpty = false := by
        simp [List.isEmpty_iff, hw]
      simp only [splitAux, hsp, if_true, hne, Bool.false_eq_true, if_false]
      simp only [List.append_nil, List.reverse_reverse]
      exact congrArg (w :: ·) (ih (fun x hx => h x (List.mem_cons_of_mem w hx)))

/-- Appending one more word to a space-join. -/
theorem joinSp_append_singleton :
    ∀ (ws : List (List Char)) (w : List Char),
      joinSp (ws ++ [w]) = if ws.isEmpty then w else joinSp ws ++ ' ' :: w := by
  intro ws
  induction ws with
  | nil => intro w; rfl
  | cons w1 ws ih =>
    intro w
    cases ws with
    | nil => rfl
    | cons w2 ws2 =>
      have h1 : joinSp ((w1 :: w2 :: ws2) ++ [w]) =
          w1 ++ ' ' :: joinSp ((w2 :: ws2) ++ [w]) := rfl
      have h2 : joinSp (w1 :: w2 :: ws2) = w1 ++ ' ' :: joinSp (w2 :: ws2) := rfl
      rw [h1, ih w, h2]
      simp [List.append_assoc]

/-- The greedy packing loop only ever emits a chunk that fits in
`maxLength` or consists of a single input word. -/
theorem chunkLoop_chunk_bound (maxLength : Nat) :
    ∀ (ws cur : List (List Char)) (curLen : Nat),
      (cur ≠ [] → (joinSp cur).length ≤ curLen) →
      (2 ≤ cur.length → curLen ≤ maxLength) →
      ∀ chunk ∈ chunkLoop maxLength ws cur curLen,
        chunk.length ≤ maxLength ∨ ∃ w, (w ∈ ws ∨ w ∈ cur) ∧ chunk = w := by
  intro ws
  induction ws with
  | nil =>
    intro cur curLen h1 h2 chunk hc
    simp only [chunkLoop] at hc
    split at hc
    · cases hc
    · rename_i hne
      simp only [List.mem_singleton] at hc
      subst hc
      match cur, hne with
      | [x], _ => exact Or.inr ⟨x, Or.inr (List.mem_singleton.mpr rfl), rfl⟩
      | x :: y :: rest, _ =>
        refine Or.inl (le_trans (h1 (by simp)) (h2 (by simp [Nat.succ_le_succ])))
  | cons w ws ih =>
    intro cur curLen h1 h2 chunk hc
    simp only [chunkLoop] at hc
    split at hc
    · rename_i hcond
      rcases List.mem_cons.mp hc with rfl | hc
      · -- the emitted chunk is joinSp cur, and cur is nonempty
        have hne : cur ≠ [] := by
          rcases (Bool.and_eq_true _ _).mp hcond with ⟨-, hb⟩
          simpa [List.isEmpty_iff] using hb
        match cur, hne with
        | [x], _ => exact Or.inr ⟨x, Or.inr (List.mem_singleton.mpr rfl), rfl⟩
        | x :: y :: rest, _ =>
          refine Or.inl (le_trans (h1 (by simp)) (h2 (by simp [Nat.succ_le_succ])))
      · have hrec := ih [w] w.length (fun _ => le_of_eq rfl)
          (by intro h2; simp at h2) chunk hc
        rcases hrec with h | ⟨w2, hmem, heq⟩
        · exact Or.inl h
        · rcases hmem with hmem | hmem
          · exact Or.inr ⟨w2, Or.inl (List.mem_cons_of_mem w hmem), heq⟩
          · simp only [List.mem_singleton] at hmem
            subst hmem
            exact Or.inr ⟨w2, Or.inl (List.mem_cons_self w2 ws), heq⟩
    · rename_i hcond
      have hnew1 : cur ++ [w] ≠ [] → (joinSp (cur ++ [w])).length ≤ curLen + w.length + 1 := by
        intro _
        rw [joinSp_append_singleton cur w]
        by_cases hce : cur = []
        · subst hce
          simp only [List.isEmpty_nil, if_true]
          omega
        · have : cur.isEmpty = false := by simp [List.isEmpty_iff, hce]
          rw [this]
          simp only [Bool.false_eq_true, if_false, List.length_append, List.length_cons]
          have := h1 hce
          omega
      have hnew2 : 2 ≤ (cur ++ [w]).length → curLen + w.length + 1 ≤ maxLength := by
        intro hlen
        have hce : cur ≠ [] := by
          intro h
          subst h
          simp at hlen
        have hbool : (!cur.isEmpty) = true := by simp [List.isEmpty_iff, hce]
        have : decide (curLen + w.length + 1 > maxLength) = false := by
          rcases Bool.and_eq_false_iff.mp (Bool.eq_false_iff.mpr hcond) with h | h
          · exact h
          · rw [hbool] at h; cases h
        have := of_decide_eq_false this
        omega
      have hrec := ih (cur ++ [w]) (curLen + w.length + 1) hnew1 hnew2 chunk hc
      rcases hrec with h | ⟨w2, hmem, heq⟩
      · exact Or.inl h
      · rcases hmem with hmem | hmem
        · exact Or.inr ⟨w2, Or.inl (List.mem_cons_of_mem w hmem), heq⟩
        · rcases List.mem_append.mp hmem with hmem | hmem
          · exact Or.inr ⟨w2, Or.inr hmem, heq⟩
          · simp only [List.mem_singleton] at hmem
            subst hmem
            exact Or.inr ⟨w2, Or.inl (List.mem_cons_self w2 ws), heq⟩

/-- C2 counterexample: with `max_length = 3`, the single four-character
word `aaaa` becomes a chunk of length 4 — `chunk_text` does exceed the
configured size. -/
theorem c2_counterexample :
    chunk_text (str "aaaa") 3 = [str "aaaa"] ∧ 3 < (str "aaaa").length :=
  ⟨rfl, by decide⟩

/-- C2 (amended): every chunk produced by `chunk_text` has length at most
the maximum, except that a single word longer than the maximum becomes a
chunk of its own (word boundaries are never broken). -/
theorem c2_chunk_size_amended (text : List Char) (maxLength : Nat)
    (chunk : List Char) (h : chunk ∈ chunk_text text maxLength) :
    chunk.length ≤ maxLength ∨
      ∃ w ∈ pySplit text, chunk = w ∧ maxLength < w.length := by
  have hbase := chunkLoop_chunk_bound maxLength (pySplit text) [] 0
    (by intro h; cases h rfl) (by intro h; simp at h) chunk h
  by_cases hle : chunk.length ≤ maxLength
  · exact Or.inl hle
  · rcases hbase with hb | ⟨w, hmem, heq⟩
    · exact Or.inl hb
    · rcases hmem with hmem | hmem
      · exact Or.inr ⟨w, hmem, heq, by rw [← heq]; exact Nat.lt_of_not_le hle⟩
      · cases hmem

/-- Witness for the amended C2. -/
theorem c2_chunk_size_amended_witness :
    (str "ab cd").length ≤ 10 ∨
      ∃ w ∈ pySplit (str "ab cd"), str "ab cd" = w ∧ 10 < w.length :=
  c2_chunk_size_amended (str "ab cd") 10 (str "ab cd") (by decide)

/-- The packing loop preserves the word sequence: splitting every produced
chunk back into words and concatenating gives the pending words. -/
theorem chunkLoop_join (maxLength : Nat) :
    ∀ (ws cur : List (List Char)) (curLen : Nat),
      (∀ w ∈ ws, w ≠ [] ∧ ∀ c ∈ w, isPySpace c = false) →
      (∀ w ∈ cur, w ≠ [] ∧ ∀ c ∈ w, isPySpace c = false) →
      ((chunkLoop maxLength ws cur curLen).map pySplit).flatten = cur ++ ws := by
  intro ws
  induction ws with
  | nil =>
    intro cur curLen _ hcur
    simp only [chunkLoop]
    split
    · rename_i hce
      simp only [List.isEmpty_iff] at hce
      simp [hce]
    · simp [pySplit_joinSp cur hcur]
  | cons w ws ih =>
    intro cur curLen hws hcur
    have hw := hws w (List.mem_cons_self w ws)
    have hws2 : ∀ x ∈ ws, x ≠ [] ∧ ∀ c ∈ x, isPySpace c = false :=
      fun x hx => hws x (List.mem_cons_of_mem w hx)
    simp only [chunkLoop]
    split
    · rename_i hcond
      have hne : cur ≠ [] := by
        rcases (Bool.and_eq_true _ _).mp hcond with ⟨-, hb⟩
        simpa [List.isEmpty_iff] using hb
      simp only [List.map_cons, List.flatten_cons]
      rw [pySplit_joinSp cur hcur,
        ih [w] w.length hws2 (by intro x hx; simp only [List.mem_singleton] at hx; subst hx; exact hw)]
      simp
    · rw [ih (cur ++ [w]) (curLen + w.length + 1) hws2 ?_]
      · simp
      · intro x hx
        rcases List.mem_append.mp hx with hx | hx
        · exact hcur x hx
        · simp only [List.mem_singleton] at hx
          subst hx
          exact hw

/-- C4: chunking loses and reorders nothing — concatenating the
whitespace-normalized word sequences of all chunks, in order, gives the
whitespace-normalized word sequence of the original text. -/
theorem c4_chunks_preserve_word_sequence (text : List Char) (maxLength : Nat) :
    ((chunk_text text maxLength).map pySplit).flatten = pySplit text := by
  have := chunkLoop_join maxLength (pySplit text) [] 0 (pySplit_words_wf text)
    (by intro x hx; cases hx)
  simpa using this

/-- C3 counterexample: the aggregate the code computes is a percentage
(`(found/total)*100`), and its found-test excludes the exact sentinel
markers, not every `not found` substring: for the single answer
`the clause was not found here` (which contains `not found` but not
`Information not found`), the code reports 100 while the claim's formula
gives 0. -/
theorem c3_counterexample :
    mainAccuracy [⟨str "q", str "the clause was not found here"⟩] 1 = some 100 ∧
    claimedAccuracy [⟨str "q", str "the clause was not found here"⟩] 1 = 0 ∧
    (100 : ℚ) ≠ 0 := by
  refine ⟨?_, ?_, by norm_num⟩
  · have h1 : foundCount [⟨str "q", str "the clause was not found here"⟩] = 1 := by decide
    rw [mainAccuracy, h1]
    norm_num
  · have h2 : (List.filter
        (fun r => !containsSub r.answer (str "not found") &&
          !containsSub r.answer (str "not recognized"))
        [(⟨str "q", str "the clause was not found here"⟩ : AnswerRec)]).length = 0 := by
      decide
    rw [claimedAccuracy, h2]
    norm_num

/-- C3 (amended): both `main` aggregations are guarded by the
`if results:` check, so the division by the question count is never
performed for an empty run; on a nonempty run (where, by the one-answer-
per-question invariant, the total is nonzero and the division is defined)
the accuracy equals the non-sentinel answer count divided by the total,
scaled to a percentage.  The text-based main excludes both the
`Information not found` and `not recognized` markers; the efficient main
only the former. -/
theorem c3_accuracy_formula_guarded (results : List AnswerRec) (total : Nat)
    (hlen : results.length = total) :
    (results = [] →
      mainAccuracy results total = none ∧ efficientMainAccuracy results total = none) ∧
    (results ≠ [] →
      total ≠ 0 ∧
      mainAccuracy results total = some ((foundCount results : ℚ) / (total : ℚ) * 100) ∧
      efficientMainAccuracy results total =
        some ((efficientFoundCount results : ℚ) / (total : ℚ) * 100)) := by
  constructor
  · rintro rfl
    exact ⟨rfl, rfl⟩
  · intro hne
    refine ⟨?_, ?_, ?_⟩
    · intro h0
      rw [h0] at hlen
      exact hne (List.length_eq_zero.mp hlen)
    · rw [mainAccuracy, if_neg]
      simp [List.isEmpty_iff, hne]
    · rw [efficientMainAccuracy, if_neg]
      simp [List.isEmpty_iff, hne]

/-- Witness for the amended C3: the empty run is guarded, and a one-answer
run divides by one. -/
theorem c3_accuracy_formula_guarded_witness :
    (mainAccuracy [] 0 = none ∧ efficientMainAccuracy [] 0 = none) ∧
    ((1 : Nat) ≠ 0 ∧
      mainAccuracy [⟨str "q", str "fine"⟩] 1 =
        some ((foundCount [⟨str "q", str "fine"⟩] : ℚ) / ((1 : Nat) : ℚ) * 100) ∧
      efficientMainAccuracy [⟨str "q", str "fine"⟩] 1 =
        some ((efficientFoundCount [⟨str "q", str "fine"⟩] : ℚ) / ((1 : Nat) : ℚ) * 100)) := by
  constructor
  · exact (c3_accuracy_formula_guarded [] 0 rfl).1 rfl
  · exact (c3_accuracy_formula_guarded [⟨str "q", str "fine"⟩] 1 rfl).2
      (List.cons_ne_nil _ _)

/-! ## Sufficiency of the matcher fuel -/

/-- Strict decrease of the matcher measure `(|s| + 1) * (|p| + 2)` along a
recursive call whose input shrinks. -/
theorem matcherMeasure_lt {s₂ s : List Char} {q p : List Atom}
    (hs : s₂.length ≤ s.length) (hq : q.length ≤ p.length)
    (hstrict : s₂.length < s.length ∨ q.length < p.length) :
    (s₂.length + 1) * (q.length + 2) < (s.length + 1) * (p.length + 2) := by
  rcases hstrict with h | h
  · calc (s₂.length + 1) * (q.length + 2)
        ≤ s.length * (p.length + 2) := Nat.mul_le_mul (by omega) (by omega)
      _ < (s.length + 1) * (p.length + 2) :=
        Nat.mul_lt_mul_of_pos_right (by omega) (by omega)
  · calc (s₂.length + 1) * (q.length + 2)
        ≤ (s.length + 1) * (q.length + 2) := Nat.mul_le_mul (by omega) (le_refl _)
      _ < (s.length + 1) * (p.length + 2) :=
        Nat.mul_lt_mul_of_pos_left (by omega) (by omega)

/-- The matcher is fuel-independent once the fuel reaches the measure
`(|s| + 1) * (|p| + 2)`: the `fuel = 0` branch of `matchF` is unreachable
below that bound, so `matchAtoms` computes the backtracking match, not a
fuel artifact. -/
theorem matchF_stable :
    ∀ (n : Nat) (p : List Atom) (s : List Char),
      (s.length + 1) * (p.length + 2) ≤ n →
      ∀ (cap : Option (List Char)) (f1 f2 : Nat),
        (s.length + 1) * (p.length + 2) ≤ f1 →
        (s.length + 1) * (p.length + 2) ≤ f2 →
        matchF f1 p s cap = matchF f2 p s cap := by
  intro n
  induction n with
  | zero =>
    intro p s hn
    have h2 : 1 * 2 ≤ (s.length + 1) * (p.length + 2) :=
      Nat.mul_le_mul (by omega) (by omega)
    omega
  | succ n ih =>
    intro p s hn cap f1 f2 hf1 hf2
    have h2 : 1 * 2 ≤ (s.length + 1) * (p.length + 2) :=
      Nat.mul_le_mul (by omega) (by omega)
    obtain ⟨m1, rfl⟩ : ∃ m, f1 = m + 1 := ⟨f1 - 1, by omega⟩
    obtain ⟨m2, rfl⟩ : ∃ m, f2 = m + 1 := ⟨f2 - 1, by omega⟩
    match p with
    | [] => rfl
    | .lit l :: rest =>
      have hsub : ((s.drop l.length).length + 1) * (rest.length + 2) <
          (s.length + 1) * ((Atom.lit l :: rest).length + 2) :=
        matcherMeasure_lt (by simp) (by simp) (Or.inr (by simp))
      have e1 := ih rest (s.drop l.length)
        (Nat.lt_succ_iff.mp (lt_of_lt_of_le hsub hn)) cap m1 m2
        (Nat.lt_succ_iff.mp (lt_of_lt_of_le hsub hf1))
        (Nat.lt_succ_iff.mp (lt_of_lt_of_le hsub hf2))
      simp only [matchF]
      rw [e1]
    | .anyOne :: rest =>
      match s with
      | [] => rfl
      | c :: s₂ =>
        have hsub : (s₂.length + 1) * (rest.length + 2) <
            ((c :: s₂).length + 1) * ((Atom.anyOne :: rest).length + 2) :=
          matcherMeasure_lt (by simp) (by simp) (Or.inl (by simp))
        have e1 := ih rest s₂
          (Nat.lt_succ_iff.mp (lt_of_lt_of_le hsub hn)) cap m1 m2
          (Nat.lt_succ_iff.mp (lt_of_lt_of_le hsub hf1))
          (Nat.lt_succ_iff.mp (lt_of_lt_of_le hsub hf2))
        simp only [matchF]
        rw [e1]
    | .opt ch :: rest =>
      match s with
      | [] =>
        have hsub : (([] : List Char).length + 1) * (rest.length + 2) <
            (([] : List Char).length + 1) * ((Atom.opt ch :: rest).length + 2) :=
          matcherMeasure_lt (le_refl _) (by simp) (Or.inr (by simp))
        have e1 := ih rest []
          (Nat.lt_succ_iff.mp (lt_of_lt_of_le hsub hn)) cap m1 m2
          (Nat.lt_succ_iff.mp (lt_of_lt_of_le hsub hf1))
          (Nat.lt_succ_iff.mp (lt_of_lt_of_le hsub hf2))
        simp only [matchF]
        rw [e1]
      | c :: s₂ =>
        have hsubA : (s₂.length + 1) * (rest.length + 2) <
            ((c :: s₂).length + 1) * ((Atom.opt ch :: rest).length + 2) :=
          matcherMeasure_lt (by simp) (by simp) (Or.inl (by simp))
        have hsubB : ((c :: s₂).length + 1) * (rest.length + 2) <
            ((c :: s₂).length + 1) * ((Atom.opt ch :: rest).length + 2) :=
          matcherMeasure_lt (le_refl _) (by simp) (Or.inr (by simp))
        have e1 := ih rest s₂
          (Nat.lt_succ_iff.mp (lt_of_lt_of_le hsubA hn)) cap m1 m2
          (Nat.lt_succ_iff.mp (lt_of_lt_of_le hsubA hf1))
          (Nat.lt_succ_iff.mp (lt_of_lt_of_le hsubA hf2))
        have e2 := ih rest (c :: s₂)
          (Nat.lt_succ_iff.mp (lt_of_lt_of_le hsubB hn)) cap m1 m2
          (Nat.lt_succ_iff.mp (lt_of_lt_of_le hsubB hf1))
          (Nat.lt_succ_iff.mp (lt_of_lt_of_le hsubB hf2))
        simp only [matchF]
        rw [e1, e2]
    | .spaces :: rest =>
      match s with
      | [] =>
        have hsub : (([] : List Char).length + 1) * (rest.length + 2) <
            (([] : List Char).length + 1) * ((Atom.spaces :: rest).length + 2) :=
          matcherMeasure_lt (le_refl _) (by simp) (Or.inr (by simp))
        have e1 := ih rest []
          (Nat.lt_succ_iff.mp (lt_of_lt_of_le hsub hn)) cap m1 m2
          (Nat.lt_succ_iff.mp (lt_of_lt_of_le hsub hf1))
          (Nat.lt_succ_iff.mp (lt_of_lt_of_le hsub hf2))
        simp only [matchF]
        rw [e1]
      | c :: s₂ =>
        have hsubA : (s₂.length + 1) * ((Atom.spaces :: rest).length + 2) <
            ((c :: s₂).length + 1) * ((Atom.spaces :: rest).length + 2) :=
          matcherMeasure_lt (by simp) (le_refl _) (Or.inl (by simp))
        have hsubB : ((c :: s₂).length + 1) * (rest.length + 2) <
            ((c :: s₂).length + 1) * ((Atom.spaces :: rest).length + 2) :=
          matcherMeasure_lt (le_refl _) (by simp) (Or.inr (by simp))
        have e1 := ih (.spaces :: rest) s₂
          (Nat.lt_succ_iff.mp (lt_of_lt_of_le hsubA hn)) cap m1 m2
          (Nat.lt_succ_iff.mp (lt_of_lt_of_le hsubA hf1))
          (Nat.lt_succ_iff.mp (lt_of_lt_of_le hsubA hf2))
        have e2 := ih rest (c :: s₂)
          (Nat.lt_succ_iff.mp (lt_of_lt_of_le hsubB hn)) cap m1 m2
          (Nat.lt_succ_iff.mp (lt_of_lt_of_le hsubB hf1))
          (Nat.lt_succ_iff.mp (lt_of_lt_of_le hsubB hf2))
        simp only [matchF]
        rw [e1, e2]
    | .lazyAny :: rest =>
      have hsubA : (s.length + 1) * (rest.length + 2) <
          (s.length + 1) * ((Atom.lazyAny :: rest).length + 2) :=
        matcherMeasure_lt (le_refl _) (by simp) (Or.inr (by simp))
      have e1 := ih rest s
        (Nat.lt_succ_iff.mp (lt_of_lt_of_le hsubA hn)) cap m1 m2
        (Nat.lt_succ_iff.mp (lt_of_lt_of_le hsubA hf1))
        (Nat.lt_succ_iff.mp (lt_of_lt_of_le hsubA hf2))
      match s with
      | [] =>
        simp only [matchF]
        rw [e1]
      | c :: s₂ =>
        have hsubB : (s₂.length + 1) * ((Atom.lazyAny :: rest).length + 2) <
            ((c :: s₂).length + 1) * ((Atom.lazyAny :: rest).length + 2) :=
          matcherMeasure_lt (by simp) (le_refl _) (Or.inl (by simp))
        have e2 := ih (.lazyAny :: rest) s₂
          (Nat.lt_succ_iff.mp (lt_of_lt_of_le hsubB hn)) cap m1 m2
          (Nat.lt_succ_iff.mp (lt_of_lt_of_le hsubB hf1))
          (Nat.lt_succ_iff.mp (lt_of_lt_of_le hsubB hf2))
        simp only [matchF]
        rw [e1, e2]
    | .digits :: rest =>
      match s with
      | [] => rfl
      | c :: s₂ =>
        have hsub : (s₂.length + 1) * ((Atom.digitsAcc [c] :: rest).length + 2) <
            ((c :: s₂).length + 1) * ((Atom.digits :: rest).length + 2) :=
          matcherMeasure_lt (by simp) (by simp) (Or.inl (by simp))
        have e1 := ih (.digitsAcc [c] :: rest) s₂
          (Nat.lt_succ_iff.mp (lt_of_lt_of_le hsub hn)) cap m1 m2
          (Nat.lt_succ_iff.mp (lt_of_lt_of_le hsub hf1))
          (Nat.lt_succ_iff.mp (lt_of_lt_of_le hsub hf2))
        simp only [matchF]
        rw [e1]
    | .digitsAcc acc :: rest =>
      match s with
      | [] =>
        have hsub : (([] : List Char).length + 1) * (rest.length + 2) <
            (([] : List Char).length + 1) * ((Atom.digitsAcc acc :: rest).length + 2) :=
          matcherMeasure_lt (le_refl _) (by simp) (Or.inr (by simp))
        have e1 := ih rest []
          (Nat.lt_succ_iff.mp (lt_of_lt_of_le hsub hn)) (some acc) m1 m2
          (Nat.lt_succ_iff.mp (lt_of_lt_of_le hsub hf1))
          (Nat.lt_succ_iff.mp (lt_of_lt_of_le hsub hf2))
        simp only [matchF]
        rw [e1]
      | c :: s₂ =>
        have hsubA : (s₂.length + 1) * ((Atom.digitsAcc (acc ++ [c]) :: rest).length + 2) <
            ((c :: s₂).length + 1) * ((Atom.digitsAcc acc :: rest).length + 2) :=
          matcherMeasure_lt (by simp) (by simp) (Or.inl (by simp))
        have hsubB : ((c :: s₂).length + 1) * (rest.length + 2) <
            ((c :: s₂).length + 1) * ((Atom.digitsAcc acc :: rest).length + 2) :=
          matcherMeasure_lt (le_refl _) (by simp) (Or.inr (by simp))
        have e1 := ih (.digitsAcc (acc ++ [c]) :: rest) s₂
          (Nat.lt_succ_iff.mp (lt_of_lt_of_le hsubA hn)) cap m1 m2
          (Nat.lt_succ_iff.mp (lt_of_lt_of_le hsubA hf1))
          (Nat.lt_succ_iff.mp (lt_of_lt_of_le hsubA hf2))
        have e2 := ih rest (c :: s₂)
          (Nat.lt_succ_iff.mp (lt_of_lt_of_le hsubB hn)) (some acc) m1 m2
          (Nat.lt_succ_iff.mp (lt_of_lt_of_le hsubB hf1))
          (Nat.lt_succ_iff.mp (lt_of_lt_of_le hsubB hf2))
        simp only [matchF]
        rw [e1, e2]

/-- Any fuel at least `matchBound p s` computes the same value as
`matchAtoms p s`: the fuel in the embedding is provably sufficient. -/
theorem matchAtoms_fuel_sufficient (p : List Atom) (s : List Char) (f : Nat)
    (hf : matchBound p s ≤ f) : matchF f p s none = matchAtoms p s :=
  matchF_stable (matchBound p s) p s (le_refl _) none f (matchBound p s) hf (le_refl _)

end DataAnalysis
